import Mathlib

/-!
Verification of the apparent polar wander simulation
(src/apparent_polar_wander_simulation.py).

The Python source works over numpy double-precision floats; the embedding
below idealises those as real numbers.  Python exceptions (the numpy
ValueError raised by np.linspace on a negative sample count) are modelled
by an Option result.  All other functions are total, exactly as in the
source, which contains no validation or error handling of its own.
-/

noncomputable section

open Real

/-- A 3-component real vector, standing for a numpy array of shape (3,). -/
structure Vec3 where
  x : ℝ
  y : ℝ
  z : ℝ

/-- Euclidean norm, as computed by np.linalg.norm on a 3-vector. -/
def Vec3.norm (v : Vec3) : ℝ := Real.sqrt (v.x * v.x + v.y * v.y + v.z * v.z)

/-- Componentwise division of a vector by a scalar (numpy broadcast). -/
def Vec3.div (v : Vec3) (r : ℝ) : Vec3 := ⟨v.x / r, v.y / r, v.z / r⟩

/-- Squared Euclidean norm (helper for the development). -/
def Vec3.normSq (v : Vec3) : ℝ := v.x * v.x + v.y * v.y + v.z * v.z

/-- Dot product (helper for the development). -/
def Vec3.dot (v w : Vec3) : ℝ := v.x * w.x + v.y * w.y + v.z * w.z

/-- Cross product (helper for the development). -/
def Vec3.cross (v w : Vec3) : Vec3 :=
  ⟨v.y * w.z - v.z * w.y, v.z * w.x - v.x * w.z, v.x * w.y - v.y * w.x⟩

/-- Scalar multiple (helper for the development). -/
def Vec3.smul (r : ℝ) (v : Vec3) : Vec3 := ⟨r * v.x, r * v.y, r * v.z⟩

/-- Componentwise difference (helper for the development). -/
def Vec3.sub (v w : Vec3) : Vec3 := ⟨v.x - w.x, v.y - w.y, v.z - w.z⟩

/-- A 3 by 3 real matrix, standing for a numpy array of shape (3, 3);
entry a01 is row 0, column 1, and so on. -/
structure Mat3 where
  a00 : ℝ
  a01 : ℝ
  a02 : ℝ
  a10 : ℝ
  a11 : ℝ
  a12 : ℝ
  a20 : ℝ
  a21 : ℝ
  a22 : ℝ

/-- Matrix-vector product (the @ operator of numpy). -/
def Mat3.mulVec (m : Mat3) (v : Vec3) : Vec3 :=
  ⟨m.a00 * v.x + m.a01 * v.y + m.a02 * v.z,
   m.a10 * v.x + m.a11 * v.y + m.a12 * v.z,
   m.a20 * v.x + m.a21 * v.y + m.a22 * v.z⟩

/-- Matrix transpose (the .T attribute of numpy). -/
def Mat3.transpose (m : Mat3) : Mat3 :=
  ⟨m.a00, m.a10, m.a20, m.a01, m.a11, m.a21, m.a02, m.a12, m.a22⟩

/-- Matrix product (helper for the development). -/
def Mat3.mul (m n : Mat3) : Mat3 :=
  ⟨m.a00 * n.a00 + m.a01 * n.a10 + m.a02 * n.a20,
   m.a00 * n.a01 + m.a01 * n.a11 + m.a02 * n.a21,
   m.a00 * n.a02 + m.a01 * n.a12 + m.a02 * n.a22,
   m.a10 * n.a00 + m.a11 * n.a10 + m.a12 * n.a20,
   m.a10 * n.a01 + m.a11 * n.a11 + m.a12 * n.a21,
   m.a10 * n.a02 + m.a11 * n.a12 + m.a12 * n.a22,
   m.a20 * n.a00 + m.a21 * n.a10 + m.a22 * n.a20,
   m.a20 * n.a01 + m.a21 * n.a11 + m.a22 * n.a21,
   m.a20 * n.a02 + m.a21 * n.a12 + m.a22 * n.a22⟩

/-- The 3 by 3 identity matrix. -/
def Mat3.id : Mat3 := ⟨1, 0, 0, 0, 1, 0, 0, 0, 1⟩

/-- Degrees to radians, as np.deg2rad. -/
def deg2rad (x : ℝ) : ℝ := x * (Real.pi / 180)

/-- Radians to degrees, as np.rad2deg. -/
def rad2deg (x : ℝ) : ℝ := x * (180 / Real.pi)

/-- np.clip of a scalar to the interval from lo to hi. -/
def clip (v lo hi : ℝ) : ℝ := min (max v lo) hi

/-- np.arctan2 y x, the angle of the point (x, y), in the range from
-pi (exclusive) to pi (inclusive); realised by the complex argument. -/
def atan2 (y x : ℝ) : ℝ := Complex.arg (x + y * Complex.I)

/-- Parameters describing the simplified plate motion model
(dataclass PlateMotionParameters).  The sample count time_steps is a
Python int, hence an integer that may be negative. -/
structure PlateMotionParameters where
  angular_velocity_deg_per_myr : ℝ
  rotation_axis_lat : ℝ
  rotation_axis_lon : ℝ
  total_time_myr : ℝ
  time_steps : ℤ

/-- Container for storing simulation output (dataclass SimulationResult).
The two coordinate tracks are sequences of (lat, lon) pairs. -/
structure SimulationResult where
  time_myr : List ℝ
  continent_lat_lon : List (ℝ × ℝ)
  apparent_pole_lat_lon : List (ℝ × ℝ)

/-- np.linspace start stop num with endpoint=True: num evenly spaced
values from start to stop.  numpy raises ValueError when num is
negative (modelled by none) and special-cases num = 1 to the singleton
list holding start. -/
def linspace (start stop : ℝ) (num : ℤ) : Option (List ℝ) :=
  if num < 0 then none
  else if num = 1 then some [start]
  else some ((List.range num.toNat).map
    (fun i : ℕ => start + (i : ℝ) * (stop - start) / ((num : ℝ) - 1)))

/-- rotation_matrix axis angle_rad: the Rodrigues rotation formula from
the source; the axis is first normalised by its Euclidean norm. -/
def rotation_matrix (axis : Vec3) (angle_rad : ℝ) : Mat3 :=
  let u := axis.div axis.norm
  let c := Real.cos angle_rad
  let s := Real.sin angle_rad
  let C := 1 - c
  ⟨c + u.x * u.x * C, u.x * u.y * C - u.z * s, u.x * u.z * C + u.y * s,
   u.y * u.x * C + u.z * s, c + u.y * u.y * C, u.y * u.z * C - u.x * s,
   u.z * u.x * C - u.y * s, u.z * u.y * C + u.x * s, c + u.z * u.z * C⟩

/-- spherical_to_cartesian lat_deg lon_deg from the source. -/
def spherical_to_cartesian (lat_deg lon_deg : ℝ) : Vec3 :=
  let lat := deg2rad lat_deg
  let lon := deg2rad lon_deg
  ⟨Real.cos lat * Real.cos lon, Real.cos lat * Real.sin lon, Real.sin lat⟩

/-- cartesian_to_spherical vector from the source: latitude via arcsin of
the clipped z component, longitude via arctan2, both in degrees. -/
def cartesian_to_spherical (v : Vec3) : ℝ × ℝ :=
  (rad2deg (Real.arcsin (clip v.z (-1) 1)), rad2deg (atan2 v.y v.x))

/-- simulate_plate_motion from the source.  The loop writing row i of the
two coordinate arrays from rotation angle i is rendered as a map over the
angle list; a negative sample count propagates the numpy ValueError. -/
def simulate_plate_motion (params : PlateMotionParameters)
    (continent_present_lat continent_present_lon : ℝ) :
    Option SimulationResult :=
  let axis := spherical_to_cartesian params.rotation_axis_lat params.rotation_axis_lon
  let pole_vector : Vec3 := ⟨0, 0, 1⟩
  let continent_vector := spherical_to_cartesian continent_present_lat continent_present_lon
  match linspace 0 params.total_time_myr params.time_steps with
  | none => none
  | some time =>
    let rotation_angles := time.map
      (fun t => deg2rad (params.angular_velocity_deg_per_myr * t))
    some
      { time_myr := time
        continent_lat_lon := rotation_angles.map
          (fun angle => cartesian_to_spherical
            ((rotation_matrix axis angle).mulVec continent_vector))
        apparent_pole_lat_lon := rotation_angles.map
          (fun angle => cartesian_to_spherical
            ((rotation_matrix axis angle).transpose.mulVec pole_vector)) }

/-! ### Helper layer: the Rodrigues matrix of an already-normalised axis -/

/-- The Rodrigues matrix built from the components of u without the
normalisation step; rotation_matrix is rotM of the normalised axis. -/
def rotM (u : Vec3) (t : ℝ) : Mat3 :=
  ⟨Real.cos t + u.x * u.x * (1 - Real.cos t),
   u.x * u.y * (1 - Real.cos t) - u.z * Real.sin t,
   u.x * u.z * (1 - Real.cos t) + u.y * Real.sin t,
   u.y * u.x * (1 - Real.cos t) + u.z * Real.sin t,
   Real.cos t + u.y * u.y * (1 - Real.cos t),
   u.y * u.z * (1 - Real.cos t) - u.x * Real.sin t,
   u.z * u.x * (1 - Real.cos t) - u.y * Real.sin t,
   u.z * u.y * (1 - Real.cos t) + u.x * Real.sin t,
   Real.cos t + u.z * u.z * (1 - Real.cos t)⟩

lemma rotation_matrix_eq_rotM (axis : Vec3) (t : ℝ) :
    rotation_matrix axis t = rotM (axis.div axis.norm) t := rfl

lemma Vec3.normSq_nonneg (v : Vec3) : 0 ≤ v.normSq := by
  have hx := mul_self_nonneg v.x
  have hy := mul_self_nonneg v.y
  have hz := mul_self_nonneg v.z
  unfold Vec3.normSq
  linarith

lemma Vec3.normSq_eq_zero_iff {v : Vec3} : v.normSq = 0 ↔ v = ⟨0, 0, 0⟩ := by
  obtain ⟨x, y, z⟩ := v
  simp only [Vec3.normSq, Vec3.mk.injEq]
  constructor
  · intro h
    have hx : x * x = 0 := le_antisymm
      (by nlinarith [mul_self_nonneg y, mul_self_nonneg z]) (mul_self_nonneg x)
    have hy : y * y = 0 := le_antisymm
      (by nlinarith [mul_self_nonneg x, mul_self_nonneg z]) (mul_self_nonneg y)
    have hz : z * z = 0 := le_antisymm
      (by nlinarith [mul_self_nonneg x, mul_self_nonneg y]) (mul_self_nonneg z)
    exact ⟨mul_self_eq_zero.mp hx, mul_self_eq_zero.mp hy, mul_self_eq_zero.mp hz⟩
  · rintro ⟨rfl, rfl, rfl⟩
    ring

lemma Vec3.norm_sq_eq (v : Vec3) : v.norm ^ 2 = v.normSq :=
  Real.sq_sqrt v.normSq_nonneg

lemma Vec3.normSq_div_norm {axis : Vec3} (h : axis ≠ ⟨0, 0, 0⟩) :
    (axis.div axis.norm).normSq = 1 := by
  have h0 : axis.normSq ≠ 0 := fun hh => h (Vec3.normSq_eq_zero_iff.mp hh)
  have hpos : 0 < axis.normSq := lt_of_le_of_ne axis.normSq_nonneg (Ne.symm h0)
  have hnpos : 0 < axis.norm := Real.sqrt_pos.mpr hpos
  have hsq := axis.norm_sq_eq
  obtain ⟨x, y, z⟩ := axis
  simp only [Vec3.normSq, Vec3.div] at *
  field_simp
  nlinarith [hsq]

lemma Vec3.div_norm_of_unit {v : Vec3} (h : v.normSq = 1) : v.div v.norm = v := by
  have hn : v.norm = 1 := by
    have : v.norm = Real.sqrt v.normSq := rfl
    rw [this, h, Real.sqrt_one]
  simp [Vec3.div, hn]

lemma spherical_to_cartesian_normSq (lat lon : ℝ) :
    (spherical_to_cartesian lat lon).normSq = 1 := by
  simp only [spherical_to_cartesian, Vec3.normSq]
  have h1 := Real.sin_sq_add_cos_sq (deg2rad lat)
  have h2 := Real.sin_sq_add_cos_sq (deg2rad lon)
  nlinarith [h1, h2]

lemma rotM_zero (u : Vec3) : rotM u 0 = Mat3.id := by
  simp only [rotM, Real.cos_zero, Real.sin_zero, Mat3.id, Mat3.mk.injEq]
  norm_num

lemma rotM_transpose (u : Vec3) (t : ℝ) : (rotM u t).transpose = rotM u (-t) := by
  simp only [rotM, Mat3.transpose, Real.cos_neg, Real.sin_neg, Mat3.mk.injEq]
  refine ⟨?_, ?_, ?_, ?_, ?_, ?_, ?_, ?_, ?_⟩ <;> ring_nf

lemma rotM_mul {u : Vec3} (h : u.normSq = 1) (a b : ℝ) :
    (rotM u a).mul (rotM u b) = rotM u (a + b) := by
  obtain ⟨x, y, z⟩ := u
  simp only [Vec3.normSq] at h
  simp only [rotM, Mat3.mul, Real.cos_add, Real.sin_add, Mat3.mk.injEq]
  refine ⟨?_, ?_, ?_, ?_, ?_, ?_, ?_, ?_, ?_⟩
  · linear_combination (x * x * (1 - Real.cos a) * (1 - Real.cos b)
      - Real.sin a * Real.sin b) * h
  · linear_combination (x * y * (1 - Real.cos a) * (1 - Real.cos b)) * h
  · linear_combination (x * z * (1 - Real.cos a) * (1 - Real.cos b)) * h
  · linear_combination (x * y * (1 - Real.cos a) * (1 - Real.cos b)) * h
  · linear_combination (y * y * (1 - Real.cos a) * (1 - Real.cos b)
      - Real.sin a * Real.sin b) * h
  · linear_combination (y * z * (1 - Real.cos a) * (1 - Real.cos b)) * h
  · linear_combination (x * z * (1 - Real.cos a) * (1 - Real.cos b)) * h
  · linear_combination (y * z * (1 - Real.cos a) * (1 - Real.cos b)) * h
  · linear_combination (z * z * (1 - Real.cos a) * (1 - Real.cos b)
      - Real.sin a * Real.sin b) * h

lemma rotM_mul_transpose {u : Vec3} (h : u.normSq = 1) (t : ℝ) :
    (rotM u t).mul (rotM u t).transpose = Mat3.id := by
  rw [rotM_transpose, rotM_mul h]
  have ht : t + -t = 0 := by ring
  rw [ht, rotM_zero]

lemma rotM_transpose_mul {u : Vec3} (h : u.normSq = 1) (t : ℝ) :
    ((rotM u t).transpose).mul (rotM u t) = Mat3.id := by
  rw [rotM_transpose, rotM_mul h]
  have ht : -t + t = 0 := by ring
  rw [ht, rotM_zero]

lemma Mat3.mul_mulVec (m n : Mat3) (v : Vec3) :
    (m.mul n).mulVec v = m.mulVec (n.mulVec v) := by
  simp only [Mat3.mul, Mat3.mulVec, Vec3.mk.injEq]
  refine ⟨?_, ?_, ?_⟩ <;> ring

lemma Mat3.id_mulVec (v : Vec3) : Mat3.id.mulVec v = v := by
  simp [Mat3.id, Mat3.mulVec]

lemma Vec3.dot_eq_normSq (v : Vec3) : v.dot v = v.normSq := rfl

lemma Mat3.mulVec_dot (m : Mat3) (v w : Vec3) :
    (m.mulVec v).dot w = v.dot (m.transpose.mulVec w) := by
  simp only [Mat3.mulVec, Mat3.transpose, Vec3.dot]
  ring

lemma rotM_mulVec_normSq {u : Vec3} (h : u.normSq = 1) (t : ℝ) (v : Vec3) :
    ((rotM u t).mulVec v).normSq = v.normSq := by
  rw [← Vec3.dot_eq_normSq, Mat3.mulVec_dot, ← Mat3.mul_mulVec,
    rotM_transpose_mul h, Mat3.id_mulVec, Vec3.dot_eq_normSq]

/-! ### Helper layer: coordinate conversions -/

lemma cart_fst (v : Vec3) :
    (cartesian_to_spherical v).1 = rad2deg (Real.arcsin (clip v.z (-1) 1)) := rfl

lemma cart_snd (v : Vec3) :
    (cartesian_to_spherical v).2 = rad2deg (atan2 v.y v.x) := rfl

lemma sph_x (lat lon : ℝ) : (spherical_to_cartesian lat lon).x
    = Real.cos (deg2rad lat) * Real.cos (deg2rad lon) := rfl

lemma sph_y (lat lon : ℝ) : (spherical_to_cartesian lat lon).y
    = Real.cos (deg2rad lat) * Real.sin (deg2rad lon) := rfl

lemma sph_z (lat lon : ℝ) : (spherical_to_cartesian lat lon).z
    = Real.sin (deg2rad lat) := rfl

lemma rad2deg_deg2rad (x : ℝ) : rad2deg (deg2rad x) = x := by
  unfold rad2deg deg2rad
  field_simp

lemma deg2rad_rad2deg (x : ℝ) : deg2rad (rad2deg x) = x := by
  unfold rad2deg deg2rad
  field_simp

lemma clip_of_mem {v : ℝ} (h1 : -1 ≤ v) (h2 : v ≤ 1) : clip v (-1) 1 = v := by
  unfold clip
  rw [max_eq_left h1, min_eq_left h2]

lemma clip_sin (t : ℝ) : clip (Real.sin t) (-1) 1 = Real.sin t :=
  clip_of_mem (Real.neg_one_le_sin t) (Real.sin_le_one t)

lemma deg2rad_90 : deg2rad 90 = Real.pi / 2 := by unfold deg2rad; ring

lemma deg2rad_180 : deg2rad 180 = Real.pi := by unfold deg2rad; ring

lemma rad2deg_zero : rad2deg 0 = 0 := by unfold rad2deg; ring

lemma rad2deg_pi_div_two : rad2deg (Real.pi / 2) = 90 := by
  unfold rad2deg
  field_simp
  ring

lemma rad2deg_pi : rad2deg Real.pi = 180 := by
  unfold rad2deg
  field_simp

lemma rad2deg_neg (x : ℝ) : rad2deg (-x) = -rad2deg x := by unfold rad2deg; ring

lemma deg2rad_mem_Icc {lat : ℝ} (h1 : -90 ≤ lat) (h2 : lat ≤ 90) :
    -(Real.pi / 2) ≤ deg2rad lat ∧ deg2rad lat ≤ Real.pi / 2 := by
  unfold deg2rad
  constructor
  · have h := mul_nonneg (show (0:ℝ) ≤ lat + 90 by linarith)
      (show (0:ℝ) ≤ Real.pi / 180 by positivity)
    nlinarith [h]
  · have h := mul_nonneg (show (0:ℝ) ≤ 90 - lat by linarith)
      (show (0:ℝ) ≤ Real.pi / 180 by positivity)
    nlinarith [h]

lemma deg2rad_mem_Ioo {lat : ℝ} (h1 : -90 < lat) (h2 : lat < 90) :
    -(Real.pi / 2) < deg2rad lat ∧ deg2rad lat < Real.pi / 2 := by
  unfold deg2rad
  constructor
  · have h := mul_pos (show (0:ℝ) < lat + 90 by linarith)
      (show (0:ℝ) < Real.pi / 180 by positivity)
    nlinarith [h]
  · have h := mul_pos (show (0:ℝ) < 90 - lat by linarith)
      (show (0:ℝ) < Real.pi / 180 by positivity)
    nlinarith [h]

lemma deg2rad_mem_Ioc {lon : ℝ} (h1 : -180 < lon) (h2 : lon ≤ 180) :
    deg2rad lon ∈ Set.Ioc (-Real.pi) Real.pi := by
  unfold deg2rad
  constructor
  · have h := mul_pos (show (0:ℝ) < lon + 180 by linarith)
      (show (0:ℝ) < Real.pi / 180 by positivity)
    nlinarith [h]
  · have h := mul_nonneg (show (0:ℝ) ≤ 180 - lon by linarith)
      (show (0:ℝ) ≤ Real.pi / 180 by positivity)
    nlinarith [h]

lemma atan2_scaled {r b : ℝ} (hr : 0 < r) (hb : b ∈ Set.Ioc (-Real.pi) Real.pi) :
    atan2 (r * Real.sin b) (r * Real.cos b) = b := by
  unfold atan2
  have hcast : ((r * Real.cos b : ℝ) : ℂ) + ((r * Real.sin b : ℝ) : ℂ) * Complex.I
      = (r : ℂ) * (Complex.cos (b : ℂ) + Complex.sin (b : ℂ) * Complex.I) := by
    push_cast
    ring
  rw [hcast]
  exact Complex.arg_mul_cos_add_sin_mul_I hr hb

lemma roundtrip_lat {lat : ℝ} (h1 : -90 ≤ lat) (h2 : lat ≤ 90) (lon : ℝ) :
    (cartesian_to_spherical (spherical_to_cartesian lat lon)).1 = lat := by
  obtain ⟨hb1, hb2⟩ := deg2rad_mem_Icc h1 h2
  rw [cart_fst, sph_z, clip_sin, Real.arcsin_sin hb1 hb2, rad2deg_deg2rad]

lemma roundtrip_lon {lat lon : ℝ} (h1 : -90 < lat) (h2 : lat < 90)
    (h3 : -180 < lon) (h4 : lon ≤ 180) :
    (cartesian_to_spherical (spherical_to_cartesian lat lon)).2 = lon := by
  obtain ⟨hb1, hb2⟩ := deg2rad_mem_Ioo h1 h2
  have hc : 0 < Real.cos (deg2rad lat) := Real.cos_pos_of_mem_Ioo ⟨hb1, hb2⟩
  rw [cart_snd, sph_x, sph_y, atan2_scaled hc (deg2rad_mem_Ioc h3 h4), rad2deg_deg2rad]

lemma cart_north : cartesian_to_spherical ⟨0, 0, 1⟩ = ((90 : ℝ), (0 : ℝ)) := by
  unfold cartesian_to_spherical
  have hz : (Vec3.mk 0 0 1).z = 1 := rfl
  have hx : (Vec3.mk 0 0 1).x = 0 := rfl
  have hy : (Vec3.mk 0 0 1).y = 0 := rfl
  rw [hz, hx, hy, clip_of_mem (by norm_num) (le_refl 1), Real.arcsin_one,
    rad2deg_pi_div_two]
  have h0 : atan2 0 0 = 0 := by
    unfold atan2
    have : ((0 : ℝ) : ℂ) + ((0 : ℝ) : ℂ) * Complex.I = 0 := by
      push_cast
      ring
    rw [this, Complex.arg_zero]
  rw [h0, rad2deg_zero]

lemma Vec3.ext3 {a b : Vec3} (hx : a.x = b.x) (hy : a.y = b.y) (hz : a.z = b.z) :
    a = b := by
  obtain ⟨a1, a2, a3⟩ := a
  obtain ⟨b1, b2, b3⟩ := b
  simp only at hx hy hz
  simp [Vec3.mk.injEq, hx, hy, hz]

lemma sph_cart_roundtrip {v : Vec3} (h : v.normSq = 1) :
    spherical_to_cartesian (cartesian_to_spherical v).1 (cartesian_to_spherical v).2
      = v := by
  obtain ⟨x, y, z⟩ := v
  simp only [Vec3.normSq] at h
  have hz1 : -1 ≤ z := by nlinarith [mul_self_nonneg x, mul_self_nonneg y, sq_nonneg (z + 1)]
  have hz2 : z ≤ 1 := by nlinarith [mul_self_nonneg x, mul_self_nonneg y, sq_nonneg (z - 1)]
  have hone : 1 - z ^ 2 = x * x + y * y := by nlinarith [h]
  have hzz : (Vec3.mk x y z).z = z := rfl
  have hxx : (Vec3.mk x y z).x = x := rfl
  have hyy : (Vec3.mk x y z).y = y := rfl
  have hxcos : Real.sqrt (1 - z ^ 2) * Real.cos (atan2 y x) = x ∧
      Real.sqrt (1 - z ^ 2) * Real.sin (atan2 y x) = y := by
    rcases eq_or_lt_of_le (add_nonneg (mul_self_nonneg x) (mul_self_nonneg y)) with hxy | hxy
    · -- the vector points at a pole: x = y = 0 and the radical vanishes
      have hx0 : x = 0 := mul_self_eq_zero.mp (by nlinarith [mul_self_nonneg y])
      have hy0 : y = 0 := mul_self_eq_zero.mp (by nlinarith [mul_self_nonneg x])
      have hs : Real.sqrt (1 - z ^ 2) = 0 := by
        rw [hone, ← hxy, Real.sqrt_zero]
      constructor
      · rw [hs, hx0]; ring
      · rw [hs, hy0]; ring
    · have hw : Complex.mk x y ≠ 0 := by
        intro h0
        have hx0 : x = 0 := by simpa using congrArg Complex.re h0
        have hy0 : y = 0 := by simpa using congrArg Complex.im h0
        rw [hx0, hy0] at hxy
        simp at hxy
      have habs : Complex.abs (Complex.mk x y) = Real.sqrt (1 - z ^ 2) := by
        rw [Complex.abs_apply, Complex.normSq_mk, hone]
      have harg : atan2 y x = Complex.arg (Complex.mk x y) := by
        unfold atan2
        rw [← Complex.mk_eq_add_mul_I]
      have hspos : (0 : ℝ) < Real.sqrt (1 - z ^ 2) :=
        Real.sqrt_pos.mpr (by rw [hone]; exact hxy)
      constructor
      · rw [harg, Complex.cos_arg hw, habs]
        have hre : (Complex.mk x y).re = x := rfl
        rw [hre, mul_comm]
        exact div_mul_cancel₀ x (ne_of_gt hspos)
      · rw [harg, Complex.sin_arg, habs]
        have him : (Complex.mk x y).im = y := rfl
        rw [him, mul_comm]
        exact div_mul_cancel₀ y (ne_of_gt hspos)
  apply Vec3.ext3
  · rw [sph_x, cart_fst, cart_snd, deg2rad_rad2deg, deg2rad_rad2deg, hzz, hxx, hyy,
      clip_of_mem hz1 hz2, Real.cos_arcsin]
    exact hxcos.1
  · rw [sph_y, cart_fst, cart_snd, deg2rad_rad2deg, deg2rad_rad2deg, hzz, hxx, hyy,
      clip_of_mem hz1 hz2, Real.cos_arcsin]
    exact hxcos.2
  · rw [sph_z, cart_fst, deg2rad_rad2deg, hzz, clip_of_mem hz1 hz2,
      Real.sin_arcsin hz1 hz2]

lemma rad2deg_le_rad2deg {a b : ℝ} (h : a ≤ b) : rad2deg a ≤ rad2deg b := by
  unfold rad2deg
  have hp : (0:ℝ) ≤ 180 / Real.pi := by positivity
  exact mul_le_mul_of_nonneg_right h hp

lemma rad2deg_lt_rad2deg {a b : ℝ} (h : a < b) : rad2deg a < rad2deg b := by
  unfold rad2deg
  have hp : (0:ℝ) < 180 / Real.pi := by positivity
  exact mul_lt_mul_of_pos_right h hp

lemma cart_lat_mem (v : Vec3) :
    -90 ≤ (cartesian_to_spherical v).1 ∧ (cartesian_to_spherical v).1 ≤ 90 := by
  rw [cart_fst]
  constructor
  · have h := rad2deg_le_rad2deg (Real.neg_pi_div_two_le_arcsin (clip v.z (-1) 1))
    rwa [rad2deg_neg, rad2deg_pi_div_two] at h
  · have h := rad2deg_le_rad2deg (Real.arcsin_le_pi_div_two (clip v.z (-1) 1))
    rwa [rad2deg_pi_div_two] at h

lemma cart_lon_mem (v : Vec3) :
    -180 < (cartesian_to_spherical v).2 ∧ (cartesian_to_spherical v).2 ≤ 180 := by
  rw [cart_snd]
  have hlo : -Real.pi < atan2 v.y v.x := Complex.neg_pi_lt_arg _
  have hhi : atan2 v.y v.x ≤ Real.pi := Complex.arg_le_pi _
  constructor
  · have h := rad2deg_lt_rad2deg hlo
    rwa [rad2deg_neg, rad2deg_pi] at h
  · have h := rad2deg_le_rad2deg hhi
    rwa [rad2deg_pi] at h

/-! ### Helper layer: fixed points of a rotation -/

lemma rot_fix_key (u v : Vec3) (t : ℝ) :
    (((rotM u t).mulVec v).sub v).dot (v.sub (Vec3.smul (u.dot v) u))
      = -(1 - Real.cos t) * (v.sub (Vec3.smul (u.dot v) u)).normSq := by
  obtain ⟨x, y, z⟩ := u
  obtain ⟨a, b, c⟩ := v
  simp only [rotM, Mat3.mulVec, Vec3.sub, Vec3.dot, Vec3.smul, Vec3.normSq]
  ring

lemma cross_of_sub_eq_zero {u v : Vec3} {d : ℝ}
    (h : v.sub (Vec3.smul d u) = ⟨0, 0, 0⟩) : u.cross v = ⟨0, 0, 0⟩ := by
  obtain ⟨x, y, z⟩ := u
  obtain ⟨a, b, c⟩ := v
  simp only [Vec3.sub, Vec3.smul, Vec3.mk.injEq] at h
  obtain ⟨h1, h2, h3⟩ := h
  simp only [Vec3.cross, Vec3.mk.injEq]
  refine ⟨?_, ?_, ?_⟩
  · linear_combination y * h3 - z * h2
  · linear_combination z * h1 - x * h3
  · linear_combination x * h2 - y * h1

lemma rot_eq_imp {u v : Vec3} (hu : u.normSq = 1) {t1 t2 : ℝ}
    (hcross : u.cross v ≠ ⟨0, 0, 0⟩)
    (heq : (rotM u t1).mulVec v = (rotM u t2).mulVec v) :
    ∃ k : ℤ, t1 - t2 = (k : ℝ) * (2 * Real.pi) := by
  have h1 : (rotM u (t1 - t2)).mulVec v = v := by
    have h := congrArg ((rotM u (-t2)).mulVec) heq
    rw [← Mat3.mul_mulVec, ← Mat3.mul_mulVec, rotM_mul hu, rotM_mul hu] at h
    have e1 : -t2 + t1 = t1 - t2 := by ring
    have e2 : -t2 + t2 = 0 := by ring
    rwa [e1, e2, rotM_zero, Mat3.id_mulVec] at h
  have hkey := rot_fix_key u v (t1 - t2)
  rw [h1] at hkey
  have hvv : (v.sub v).dot (v.sub (Vec3.smul (u.dot v) u)) = 0 := by
    obtain ⟨a, b, c⟩ := v
    simp only [Vec3.sub, Vec3.dot, Vec3.smul]
    ring
  rw [hvv] at hkey
  have hwne : v.sub (Vec3.smul (u.dot v) u) ≠ ⟨0, 0, 0⟩ :=
    fun h0 => hcross (cross_of_sub_eq_zero h0)
  have hwpos : 0 < (v.sub (Vec3.smul (u.dot v) u)).normSq :=
    lt_of_le_of_ne (Vec3.normSq_nonneg _)
      (fun h0 => hwne (Vec3.normSq_eq_zero_iff.mp h0.symm))
  have hprod : (1 - Real.cos (t1 - t2)) * (v.sub (Vec3.smul (u.dot v) u)).normSq = 0 := by
    linarith [hkey]
  have hcos : Real.cos (t1 - t2) = 1 := by
    rcases mul_eq_zero.mp hprod with hc | hc
    · linarith
    · exact absurd hc (ne_of_gt hwpos)
  obtain ⟨n, hn⟩ := (Real.cos_eq_one_iff _).mp hcos
  exact ⟨n, hn.symm⟩

/-! ### Helper layer: linspace and the simulator -/

lemma linspace_neg {start stop : ℝ} {num : ℤ} (h : num < 0) :
    linspace start stop num = none := by
  unfold linspace
  rw [if_pos h]

lemma linspace_isSome {start stop : ℝ} {num : ℤ} (h : 0 ≤ num) :
    (linspace start stop num).isSome = true := by
  unfold linspace
  rw [if_neg (not_lt.mpr h)]
  split <;> rfl

lemma linspace_eq_none_iff {start stop : ℝ} {num : ℤ} :
    linspace start stop num = none ↔ num < 0 := by
  constructor
  · intro h
    by_contra hge
    have hge' : 0 ≤ num := by omega
    have hs := @linspace_isSome start stop num hge'
    rw [h] at hs
    exact absurd hs (by simp)
  · exact linspace_neg

lemma linspace_one (start stop : ℝ) : linspace start stop 1 = some [start] := by
  unfold linspace
  norm_num

lemma linspace_length {start stop : ℝ} {num : ℤ} (h0 : 0 ≤ num) {l : List ℝ}
    (h : linspace start stop num = some l) : (l.length : ℤ) = num := by
  unfold linspace at h
  rw [if_neg (not_lt.mpr h0)] at h
  by_cases h1 : num = 1
  · rw [if_pos h1, Option.some.injEq] at h
    rw [← h, h1]
    rfl
  · rw [if_neg h1, Option.some.injEq] at h
    rw [← h, List.length_map, List.length_range, Int.toNat_of_nonneg h0]

lemma linspace_sorted_le {start stop : ℝ} {num : ℤ} (h0 : 0 ≤ num)
    (hss : start ≤ stop) {l : List ℝ}
    (h : linspace start stop num = some l) : l.Sorted (· ≤ ·) := by
  unfold linspace at h
  rw [if_neg (not_lt.mpr h0)] at h
  by_cases h1 : num = 1
  · rw [if_pos h1, Option.some.injEq] at h
    rw [← h]
    simp
  · rw [if_neg h1, Option.some.injEq] at h
    rw [← h, List.Sorted, List.pairwise_map]
    rcases (show num = 0 ∨ 2 ≤ num by omega) with h2 | h2
    · rw [h2]
      simp
    · have hD : (0:ℝ) < (num : ℝ) - 1 := by
        have : (2:ℝ) ≤ (num : ℝ) := by exact_mod_cast h2
        linarith
      refine (List.pairwise_lt_range _).imp ?_
      intro i j hij
      have hij' : (i : ℝ) ≤ (j : ℝ) := by exact_mod_cast le_of_lt hij
      have hD' : (0:ℝ) ≤ stop - start := by linarith
      have hm : (i:ℝ) * (stop - start) ≤ (j:ℝ) * (stop - start) :=
        mul_le_mul_of_nonneg_right hij' hD'
      have hnum : (i:ℝ) * (stop - start) / ((num:ℝ) - 1)
          ≤ (j:ℝ) * (stop - start) / ((num:ℝ) - 1) :=
        (div_le_div_iff_of_pos_right hD).mpr hm
      linarith [hnum]

lemma linspace_sorted_lt {start stop : ℝ} {num : ℤ} (h0 : 0 ≤ num)
    (hss : start < stop) {l : List ℝ}
    (h : linspace start stop num = some l) : l.Sorted (· < ·) := by
  unfold linspace at h
  rw [if_neg (not_lt.mpr h0)] at h
  by_cases h1 : num = 1
  · rw [if_pos h1, Option.some.injEq] at h
    rw [← h]
    simp
  · rw [if_neg h1, Option.some.injEq] at h
    rw [← h, List.Sorted, List.pairwise_map]
    rcases (show num = 0 ∨ 2 ≤ num by omega) with h2 | h2
    · rw [h2]
      simp
    · have hD : (0:ℝ) < (num : ℝ) - 1 := by
        have : (2:ℝ) ≤ (num : ℝ) := by exact_mod_cast h2
        linarith
      refine (List.pairwise_lt_range _).imp ?_
      intro i j hij
      have hij' : (i : ℝ) < (j : ℝ) := by exact_mod_cast hij
      have hm : (i:ℝ) * (stop - start) < (j:ℝ) * (stop - start) :=
        mul_lt_mul_of_pos_right hij' (by linarith)
      have hnum : (i:ℝ) * (stop - start) / ((num:ℝ) - 1)
          < (j:ℝ) * (stop - start) / ((num:ℝ) - 1) :=
        (div_lt_div_iff_of_pos_right hD).mpr hm
      linarith [hnum]

lemma simulate_eq {p : PlateMotionParameters} {clat clon : ℝ} {time : List ℝ}
    (h : linspace 0 p.total_time_myr p.time_steps = some time) :
    simulate_plate_motion p clat clon = some
      { time_myr := time
        continent_lat_lon := time.map (fun t =>
          cartesian_to_spherical ((rotation_matrix
            (spherical_to_cartesian p.rotation_axis_lat p.rotation_axis_lon)
            (deg2rad (p.angular_velocity_deg_per_myr * t))).mulVec
            (spherical_to_cartesian clat clon)))
        apparent_pole_lat_lon := time.map (fun t =>
          cartesian_to_spherical ((rotation_matrix
            (spherical_to_cartesian p.rotation_axis_lat p.rotation_axis_lon)
            (deg2rad (p.angular_velocity_deg_per_myr * t))).transpose.mulVec
            ⟨0, 0, 1⟩)) } := by
  simp only [simulate_plate_motion, h]
  rw [List.map_map, List.map_map]
  rfl

lemma simulate_none {p : PlateMotionParameters} (h : p.time_steps < 0)
    (clat clon : ℝ) : simulate_plate_motion p clat clon = none := by
  simp only [simulate_plate_motion, linspace_neg h]

lemma simulate_isSome {p : PlateMotionParameters} (h : 0 ≤ p.time_steps)
    (clat clon : ℝ) : (simulate_plate_motion p clat clon).isSome = true := by
  have hs := @linspace_isSome 0 p.total_time_myr p.time_steps h
  cases hl : linspace 0 p.total_time_myr p.time_steps with
  | none => rw [hl] at hs; exact absurd hs (by simp)
  | some time => rw [simulate_eq hl]; rfl

/-! ### Concrete fixtures used by the witnesses -/

/-- The default parameter set of the script: angular velocity 0.5 degrees
per Myr, Euler pole at (60, -90), restricted to a single time sample of a
zero time span. -/
def p1 : PlateMotionParameters := ⟨0.5, 60, -90, 0, 1⟩

def axis1 : Vec3 := spherical_to_cartesian 60 (-90)

def v1 : Vec3 := spherical_to_cartesian 30 (-20)

/-- The exact value computed by simulate_plate_motion on p1 with the
default reference point (30, -20). -/
def r1 : SimulationResult :=
  { time_myr := [0]
    continent_lat_lon :=
      [cartesian_to_spherical ((rotation_matrix axis1 (deg2rad (0.5 * 0))).mulVec v1)]
    apparent_pole_lat_lon :=
      [cartesian_to_spherical
        ((rotation_matrix axis1 (deg2rad (0.5 * 0))).transpose.mulVec ⟨0, 0, 1⟩)] }

lemma simulate_p1 : simulate_plate_motion p1 30 (-20) = some r1 := by
  have h : linspace 0 p1.total_time_myr p1.time_steps = some [0] := linspace_one 0 0
  rw [simulate_eq h]
  rfl

/-! ### The claims -/

/-- C1: at every time step the continent track entry is the spherical
conversion of the Rodrigues matrix for angle angularVelocity * time[i]
(in radians) applied to the present-day reference vector, and the
apparent-pole entry is the spherical conversion of the transpose of that
matrix applied to the fixed spin axis (0,0,1); every entry is a function
of the total angle for its own time value alone, with no composition of
incremental rotations. -/
theorem claim_C1 (p : PlateMotionParameters) (clat clon : ℝ)
    (res : SimulationResult)
    (hres : simulate_plate_motion p clat clon = some res) :
    res.continent_lat_lon = res.time_myr.map (fun t =>
      cartesian_to_spherical ((rotation_matrix
        (spherical_to_cartesian p.rotation_axis_lat p.rotation_axis_lon)
        (deg2rad (p.angular_velocity_deg_per_myr * t))).mulVec
        (spherical_to_cartesian clat clon)))
    ∧ res.apparent_pole_lat_lon = res.time_myr.map (fun t =>
      cartesian_to_spherical ((rotation_matrix
        (spherical_to_cartesian p.rotation_axis_lat p.rotation_axis_lon)
        (deg2rad (p.angular_velocity_deg_per_myr * t))).transpose.mulVec
        ⟨0, 0, 1⟩)) := by
  cases hl : linspace 0 p.total_time_myr p.time_steps with
  | none => simp [simulate_plate_motion, hl] at hres
  | some time =>
    rw [simulate_eq hl] at hres
    obtain rfl := Option.some.inj hres
    exact ⟨rfl, rfl⟩

theorem claim_C1_witness :
    simulate_plate_motion p1 30 (-20) = some r1 ∧
    (r1.continent_lat_lon = r1.time_myr.map (fun t =>
      cartesian_to_spherical ((rotation_matrix
        (spherical_to_cartesian p1.rotation_axis_lat p1.rotation_axis_lon)
        (deg2rad (p1.angular_velocity_deg_per_myr * t))).mulVec
        (spherical_to_cartesian 30 (-20))))
    ∧ r1.apparent_pole_lat_lon = r1.time_myr.map (fun t =>
      cartesian_to_spherical ((rotation_matrix
        (spherical_to_cartesian p1.rotation_axis_lat p1.rotation_axis_lon)
        (deg2rad (p1.angular_velocity_deg_per_myr * t))).transpose.mulVec
        ⟨0, 0, 1⟩))) :=
  ⟨simulate_p1, claim_C1 p1 30 (-20) r1 simulate_p1⟩

/-- C9: for every input 3-vector, also non-unit ones, the latitude
returned by cartesian_to_spherical lies in [-90, 90] and the longitude
in (-180, 180]. -/
theorem claim_C9 (v : Vec3) :
    -90 ≤ (cartesian_to_spherical v).1 ∧ (cartesian_to_spherical v).1 ≤ 90 ∧
    -180 < (cartesian_to_spherical v).2 ∧ (cartesian_to_spherical v).2 ≤ 180 :=
  ⟨(cart_lat_mem v).1, (cart_lat_mem v).2, (cart_lon_mem v).1, (cart_lon_mem v).2⟩

/-- C10: the time track and the apparent-pole track of
simulate_plate_motion do not depend on the continental reference point;
two runs with the same parameters and different reference points agree on
both, differing only in the continent track. -/
theorem claim_C10 (p : PlateMotionParameters) (la1 lo1 la2 lo2 : ℝ) :
    Option.map SimulationResult.time_myr (simulate_plate_motion p la1 lo1)
      = Option.map SimulationResult.time_myr (simulate_plate_motion p la2 lo2)
    ∧ Option.map SimulationResult.apparent_pole_lat_lon (simulate_plate_motion p la1 lo1)
      = Option.map SimulationResult.apparent_pole_lat_lon (simulate_plate_motion p la2 lo2) := by
  cases hl : linspace 0 p.total_time_myr p.time_steps with
  | none =>
    have hneg : p.time_steps < 0 := linspace_eq_none_iff.mp hl
    rw [simulate_none hneg la1 lo1, simulate_none hneg la2 lo2]
    exact ⟨rfl, rfl⟩
  | some time =>
    have e1 : Option.map SimulationResult.time_myr (simulate_plate_motion p la1 lo1)
        = some time := by
      rw [simulate_eq hl]
      rfl
    have e2 : Option.map SimulationResult.time_myr (simulate_plate_motion p la2 lo2)
        = some time := by
      rw [simulate_eq hl]
      rfl
    have e3 : Option.map SimulationResult.apparent_pole_lat_lon
        (simulate_plate_motion p la1 lo1)
        = some (time.map (fun t =>
          cartesian_to_spherical ((rotation_matrix
            (spherical_to_cartesian p.rotation_axis_lat p.rotation_axis_lon)
            (deg2rad (p.angular_velocity_deg_per_myr * t))).transpose.mulVec
            ⟨0, 0, 1⟩))) := by
      rw [simulate_eq hl]
      rfl
    have e4 : Option.map SimulationResult.apparent_pole_lat_lon
        (simulate_plate_motion p la2 lo2)
        = some (time.map (fun t =>
          cartesian_to_spherical ((rotation_matrix
            (spherical_to_cartesian p.rotation_axis_lat p.rotation_axis_lon)
            (deg2rad (p.angular_velocity_deg_per_myr * t))).transpose.mulVec
            ⟨0, 0, 1⟩))) := by
      rw [simulate_eq hl]
      rfl
    rw [e1, e2, e3, e4]
    exact ⟨rfl, rfl⟩


/-- C4: for sample count at least 1 and non-negative total time, the three
result sequences have identical length equal to the sample count and the
time sequence is in chronological (non-decreasing) order, strictly
increasing whenever the total time is positive. -/
theorem claim_C4 (p : PlateMotionParameters) (clat clon : ℝ)
    (res : SimulationResult)
    (h1 : 1 ≤ p.time_steps) (h2 : 0 ≤ p.total_time_myr)
    (hres : simulate_plate_motion p clat clon = some res) :
    (res.time_myr.length : ℤ) = p.time_steps ∧
    res.continent_lat_lon.length = res.time_myr.length ∧
    res.apparent_pole_lat_lon.length = res.time_myr.length ∧
    res.time_myr.Sorted (· ≤ ·) ∧
    (0 < p.total_time_myr → res.time_myr.Sorted (· < ·)) := by
  cases hl : linspace 0 p.total_time_myr p.time_steps with
  | none => simp [simulate_plate_motion, hl] at hres
  | some time =>
    rw [simulate_eq hl] at hres
    obtain rfl := Option.some.inj hres
    have h0 : (0 : ℤ) ≤ p.time_steps := by omega
    refine ⟨linspace_length h0 hl, ?_, ?_, linspace_sorted_le h0 h2 hl,
      fun hgt => linspace_sorted_lt h0 hgt hl⟩
    · simp
    · simp

theorem claim_C4_witness :
    (1 : ℤ) ≤ p1.time_steps ∧ (0 : ℝ) ≤ p1.total_time_myr ∧
    simulate_plate_motion p1 30 (-20) = some r1 ∧
    ((r1.time_myr.length : ℤ) = p1.time_steps ∧
     r1.continent_lat_lon.length = r1.time_myr.length ∧
     r1.apparent_pole_lat_lon.length = r1.time_myr.length ∧
     r1.time_myr.Sorted (· ≤ ·) ∧
     (0 < p1.total_time_myr → r1.time_myr.Sorted (· < ·))) :=
  ⟨by norm_num [p1], by norm_num [p1], simulate_p1,
   claim_C4 p1 30 (-20) r1 (by norm_num [p1]) (by norm_num [p1]) simulate_p1⟩

/-- C5: converting a valid latitude and longitude to a Cartesian vector
and back recovers both within 1e-9 degrees (in the real-number model the
recovery is exact), except that the longitude is not recovered at the
exact poles. -/
theorem claim_C5 (lat lon : ℝ) (h1 : -90 ≤ lat) (h2 : lat ≤ 90)
    (h3 : -180 < lon) (h4 : lon ≤ 180) :
    |(cartesian_to_spherical (spherical_to_cartesian lat lon)).1 - lat| ≤ 1e-9 ∧
    (lat ≠ 90 → lat ≠ -90 →
      |(cartesian_to_spherical (spherical_to_cartesian lat lon)).2 - lon| ≤ 1e-9) := by
  constructor
  · rw [roundtrip_lat h1 h2, sub_self, abs_zero]
    norm_num
  · intro h5 h6
    have h1' : -90 < lat := lt_of_le_of_ne h1 (Ne.symm h6)
    have h2' : lat < 90 := lt_of_le_of_ne h2 h5
    rw [roundtrip_lon h1' h2' h3 h4, sub_self, abs_zero]
    norm_num

theorem claim_C5_witness :
    (-90 : ℝ) ≤ 30 ∧ (30 : ℝ) ≤ 90 ∧ (-180 : ℝ) < -20 ∧ (-20 : ℝ) ≤ 180 ∧
    (|(cartesian_to_spherical (spherical_to_cartesian 30 (-20))).1 - 30| ≤ 1e-9 ∧
     ((30 : ℝ) ≠ 90 → (30 : ℝ) ≠ -90 →
       |(cartesian_to_spherical (spherical_to_cartesian 30 (-20))).2 - (-20)| ≤ 1e-9)) :=
  ⟨by norm_num, by norm_num, by norm_num, by norm_num,
   claim_C5 30 (-20) (by norm_num) (by norm_num) (by norm_num) (by norm_num)⟩

/-- C6: for every nonzero axis and every angle the matrix returned by
rotation_matrix is orthogonal, its product with its own transpose being
the identity exactly (hence within any tolerance), and the matrix for
angle zero is the identity. -/
theorem claim_C6 (axis : Vec3) (t : ℝ) (h : axis ≠ ⟨0, 0, 0⟩) :
    (rotation_matrix axis t).mul (rotation_matrix axis t).transpose = Mat3.id ∧
    rotation_matrix axis 0 = Mat3.id := by
  have hu : (axis.div axis.norm).normSq = 1 := Vec3.normSq_div_norm h
  constructor
  · rw [rotation_matrix_eq_rotM]
    exact rotM_mul_transpose hu t
  · rw [rotation_matrix_eq_rotM]
    exact rotM_zero _

theorem claim_C6_witness :
    (Vec3.mk 0 0 1) ≠ ⟨0, 0, 0⟩ ∧
    ((rotation_matrix ⟨0, 0, 1⟩ (Real.pi / 3)).mul
        (rotation_matrix ⟨0, 0, 1⟩ (Real.pi / 3)).transpose = Mat3.id ∧
      rotation_matrix ⟨0, 0, 1⟩ 0 = Mat3.id) :=
  ⟨by norm_num [Vec3.mk.injEq],
   claim_C6 ⟨0, 0, 1⟩ (Real.pi / 3) (by norm_num [Vec3.mk.injEq])⟩

/-- Parameter set with a negative sample count, used to exhibit the
failing run for C2. -/
def p2 : PlateMotionParameters := ⟨0.5, 60, -90, 120, -1⟩

/-- C2 counterexample: the parameter set p2 has a perfectly good nonzero
rotation axis, yet the computation does not fully succeed: it fails (the
numpy ValueError of a negative sample count), refuting the part of the
claim that every input other than a zero-length axis fully succeeds. -/
theorem claim_C2_counterexample :
    spherical_to_cartesian p2.rotation_axis_lat p2.rotation_axis_lon ≠ ⟨0, 0, 0⟩ ∧
    simulate_plate_motion p2 30 (-20) = none := by
  constructor
  · intro h
    have hn := spherical_to_cartesian_normSq p2.rotation_axis_lat p2.rotation_axis_lon
    rw [h] at hn
    norm_num [Vec3.normSq] at hn
  · exact simulate_none (by norm_num [p2]) 30 (-20)

/-- C2 amended: the rotation axis built from the parameters always has
unit, hence nonzero, norm, so the zero-length-axis case can never arise
and no InvalidAxis error path exists in the code; the computation fully
succeeds for every non-negative sample count and fails outright, with no
partial result, for a negative one. -/
theorem claim_C2_amended (p : PlateMotionParameters) (clat clon : ℝ) :
    (spherical_to_cartesian p.rotation_axis_lat p.rotation_axis_lon).normSq = 1 ∧
    (0 ≤ p.time_steps → (simulate_plate_motion p clat clon).isSome = true) ∧
    (p.time_steps < 0 → simulate_plate_motion p clat clon = none) :=
  ⟨spherical_to_cartesian_normSq _ _,
   fun h => simulate_isSome h clat clon,
   fun h => simulate_none h clat clon⟩

theorem claim_C2_witness :
    ((spherical_to_cartesian p1.rotation_axis_lat p1.rotation_axis_lon).normSq = 1 ∧
     ((0 : ℤ) ≤ p1.time_steps → (simulate_plate_motion p1 30 (-20)).isSome = true) ∧
     (p1.time_steps < 0 → simulate_plate_motion p1 30 (-20) = none)) ∧
    (simulate_plate_motion p1 30 (-20)).isSome = true :=
  ⟨claim_C2_amended p1 30 (-20),
   (claim_C2_amended p1 30 (-20)).2.1 (by norm_num [p1])⟩

/-- Parameter set with sample count 0, the failing input of C3. -/
def p3 : PlateMotionParameters := ⟨0.5, 60, -90, 120, 0⟩

/-- C3, code evaluated at the failing input: with sample count 0, which is
less than 1, simulate_plate_motion does not fail with InvalidParameters as
the specification requires; it silently returns a result whose three
sequences all have length zero. -/
theorem claim_C3_failing :
    simulate_plate_motion p3 30 (-20)
      = some { time_myr := [], continent_lat_lon := [],
               apparent_pole_lat_lon := [] } := by
  have h : linspace 0 p3.total_time_myr p3.time_steps = some [] := by
    norm_num [linspace, p3]
  rw [simulate_eq h]
  rfl


/-! ### Helper layer: evaluation at special points -/

lemma Mat3.transpose_id : Mat3.id.transpose = Mat3.id := rfl

lemma rotation_matrix_unit {u : Vec3} (h : u.normSq = 1) (t : ℝ) :
    rotation_matrix u t = rotM u t := by
  rw [rotation_matrix_eq_rotM, Vec3.div_norm_of_unit h]

lemma sph_north (lon : ℝ) : spherical_to_cartesian 90 lon = ⟨0, 0, 1⟩ := by
  apply Vec3.ext3
  · rw [sph_x, deg2rad_90, Real.cos_pi_div_two, zero_mul]
  · rw [sph_y, deg2rad_90, Real.cos_pi_div_two, zero_mul]
  · rw [sph_z, deg2rad_90, Real.sin_pi_div_two]

lemma sph_origin : spherical_to_cartesian 0 0 = ⟨1, 0, 0⟩ := by
  have h0 : deg2rad 0 = 0 := by unfold deg2rad; ring
  apply Vec3.ext3
  · rw [sph_x, h0, Real.cos_zero, one_mul]
  · rw [sph_y, h0, Real.cos_zero, Real.sin_zero, one_mul]
  · rw [sph_z, h0, Real.sin_zero]

lemma atan2_zero_one : atan2 0 1 = 0 := by
  unfold atan2
  have h : ((1:ℝ):ℂ) + ((0:ℝ):ℂ) * Complex.I = 1 := by push_cast; ring
  rw [h, Complex.arg_one]

lemma atan2_one_zero : atan2 1 0 = Real.pi / 2 := by
  unfold atan2
  have h : ((0:ℝ):ℂ) + ((1:ℝ):ℂ) * Complex.I = Complex.I := by push_cast; ring
  rw [h, Complex.arg_I]

lemma cart_x_axis : cartesian_to_spherical ⟨1, 0, 0⟩ = ((0 : ℝ), (0 : ℝ)) := by
  unfold cartesian_to_spherical
  have hz : (Vec3.mk 1 0 0).z = 0 := rfl
  have hx : (Vec3.mk 1 0 0).x = 1 := rfl
  have hy : (Vec3.mk 1 0 0).y = 0 := rfl
  rw [hz, hx, hy, clip_of_mem (by norm_num) (by norm_num), Real.arcsin_zero,
    rad2deg_zero, atan2_zero_one, rad2deg_zero]

lemma cart_y_axis : cartesian_to_spherical ⟨0, 1, 0⟩ = ((0 : ℝ), (90 : ℝ)) := by
  unfold cartesian_to_spherical
  have hz : (Vec3.mk 0 1 0).z = 0 := rfl
  have hx : (Vec3.mk 0 1 0).x = 0 := rfl
  have hy : (Vec3.mk 0 1 0).y = 1 := rfl
  rw [hz, hx, hy, clip_of_mem (by norm_num) (by norm_num), Real.arcsin_zero,
    rad2deg_zero, atan2_one_zero, rad2deg_pi_div_two]

lemma rotM_z_fixes_pole (t : ℝ) :
    (rotM ⟨0, 0, 1⟩ t).mulVec ⟨0, 0, 1⟩ = ⟨0, 0, 1⟩ := by
  apply Vec3.ext3 <;> simp [rotM, Mat3.mulVec]

lemma rotM_z_mulVec_x (t : ℝ) :
    (rotM ⟨0, 0, 1⟩ t).mulVec ⟨1, 0, 0⟩ = ⟨Real.cos t, Real.sin t, 0⟩ := by
  apply Vec3.ext3 <;> simp [rotM, Mat3.mulVec]

/-! ### Claim C8 -/

/-- C8 counterexample: for a single zero-time sample and the valid
reference point (90, 50), at the north pole, the returned continent
coordinates are (90, 0) and not the input reference point (90, 50): the
longitude of a pole is not recovered. -/
theorem claim_C8_counterexample :
    simulate_plate_motion p1 90 50 = some
      { time_myr := [0]
        continent_lat_lon := [((90 : ℝ), (0 : ℝ))]
        apparent_pole_lat_lon := [((90 : ℝ), (0 : ℝ))] } ∧
    ((90 : ℝ), (0 : ℝ)) ≠ ((90 : ℝ), (50 : ℝ)) := by
  constructor
  · have hl : linspace 0 p1.total_time_myr p1.time_steps = some [0] :=
      linspace_one 0 0
    rw [simulate_eq hl]
    refine congrArg some ?_
    rw [SimulationResult.mk.injEq]
    have hang : deg2rad (p1.angular_velocity_deg_per_myr * 0) = 0 := by
      unfold deg2rad
      norm_num
    refine ⟨rfl, ?_, ?_⟩
    · have hhead : cartesian_to_spherical ((rotation_matrix
          (spherical_to_cartesian p1.rotation_axis_lat p1.rotation_axis_lon)
          (deg2rad (p1.angular_velocity_deg_per_myr * 0))).mulVec
          (spherical_to_cartesian 90 50)) = ((90 : ℝ), (0 : ℝ)) := by
        rw [hang, rotation_matrix_eq_rotM, rotM_zero, Mat3.id_mulVec,
          sph_north, cart_north]
      simp only [List.map_cons, List.map_nil, hhead]
    · have hhead : cartesian_to_spherical (((rotation_matrix
          (spherical_to_cartesian p1.rotation_axis_lat p1.rotation_axis_lon)
          (deg2rad (p1.angular_velocity_deg_per_myr * 0))).transpose).mulVec
          ⟨0, 0, 1⟩) = ((90 : ℝ), (0 : ℝ)) := by
        rw [hang, rotation_matrix_eq_rotM, rotM_zero, Mat3.transpose_id,
          Mat3.id_mulVec, cart_north]
      simp only [List.map_cons, List.map_nil, hhead]
  · intro h
    have := congrArg Prod.snd h
    norm_num at this

/-- C8 amended: for one sample over a zero time span the result sequences
have length 1 with single time value 0, the apparent-pole entry is
(90, 0) (latitude 90, longitude by the atan2 convention), and the
continent entry equals the reference point provided the point is a valid
coordinate pair away from the poles; at an exact pole the latitude is
recovered but the longitude collapses to the convention value 0. -/
theorem claim_C8_amended (p : PlateMotionParameters) (clat clon : ℝ)
    (hsteps : p.time_steps = 1) (htime : p.total_time_myr = 0)
    (h1 : -90 < clat) (h2 : clat < 90) (h3 : -180 < clon) (h4 : clon ≤ 180) :
    simulate_plate_motion p clat clon = some
      { time_myr := [0]
        continent_lat_lon := [(clat, clon)]
        apparent_pole_lat_lon := [((90 : ℝ), (0 : ℝ))] } := by
  have hl : linspace 0 p.total_time_myr p.time_steps = some [0] := by
    rw [htime, hsteps]
    exact linspace_one 0 0
  rw [simulate_eq hl]
  refine congrArg some ?_
  rw [SimulationResult.mk.injEq]
  have hang : deg2rad (p.angular_velocity_deg_per_myr * 0) = 0 := by
    unfold deg2rad
    norm_num
  refine ⟨rfl, ?_, ?_⟩
  · have hhead : cartesian_to_spherical ((rotation_matrix
        (spherical_to_cartesian p.rotation_axis_lat p.rotation_axis_lon)
        (deg2rad (p.angular_velocity_deg_per_myr * 0))).mulVec
        (spherical_to_cartesian clat clon)) = (clat, clon) := by
      rw [hang, rotation_matrix_eq_rotM, rotM_zero, Mat3.id_mulVec]
      exact Prod.ext (roundtrip_lat (le_of_lt h1) (le_of_lt h2) clon)
        (roundtrip_lon h1 h2 h3 h4)
    simp only [List.map_cons, List.map_nil, hhead]
  · have hhead : cartesian_to_spherical (((rotation_matrix
        (spherical_to_cartesian p.rotation_axis_lat p.rotation_axis_lon)
        (deg2rad (p.angular_velocity_deg_per_myr * 0))).transpose).mulVec
        ⟨0, 0, 1⟩) = ((90 : ℝ), (0 : ℝ)) := by
      rw [hang, rotation_matrix_eq_rotM, rotM_zero, Mat3.transpose_id,
        Mat3.id_mulVec, cart_north]
    simp only [List.map_cons, List.map_nil, hhead]

theorem claim_C8_witness :
    p1.time_steps = 1 ∧ p1.total_time_myr = 0 ∧
    (-90 : ℝ) < 30 ∧ (30 : ℝ) < 90 ∧ (-180 : ℝ) < -20 ∧ (-20 : ℝ) ≤ 180 ∧
    simulate_plate_motion p1 30 (-20) = some
      { time_myr := [0]
        continent_lat_lon := [((30 : ℝ), (-20 : ℝ))]
        apparent_pole_lat_lon := [((90 : ℝ), (0 : ℝ))] } :=
  ⟨rfl, rfl, by norm_num, by norm_num, by norm_num, by norm_num,
   claim_C8_amended p1 30 (-20) rfl rfl (by norm_num) (by norm_num)
     (by norm_num) (by norm_num)⟩


/-! ### Claim C7 -/

/-- C7 amended: two time steps of a run with distinct time values whose
rotation angles do not differ by a multiple of 360 degrees carry distinct
continent coordinates, provided the reference vector is not parallel to
the rotation axis (a reference point on the axis is fixed by every
rotation, which the original claim overlooks). -/
theorem claim_C7_amended (p : PlateMotionParameters) (clat clon : ℝ)
    (res : SimulationResult)
    (hres : simulate_plate_motion p clat clon = some res)
    (_hv : 0 < p.angular_velocity_deg_per_myr)
    (i j : ℕ) (hi : i < res.time_myr.length) (hj : j < res.time_myr.length)
    (hic : i < res.continent_lat_lon.length)
    (hjc : j < res.continent_lat_lon.length)
    (ht : res.time_myr.get ⟨i, hi⟩ ≠ res.time_myr.get ⟨j, hj⟩)
    (hmult : ¬ ∃ k : ℤ,
      deg2rad (p.angular_velocity_deg_per_myr * res.time_myr.get ⟨i, hi⟩)
        - deg2rad (p.angular_velocity_deg_per_myr * res.time_myr.get ⟨j, hj⟩)
        = (k : ℝ) * (2 * Real.pi))
    (hpar : (spherical_to_cartesian p.rotation_axis_lat p.rotation_axis_lon).cross
        (spherical_to_cartesian clat clon) ≠ ⟨0, 0, 0⟩) :
    res.continent_lat_lon.get ⟨i, hic⟩ ≠ res.continent_lat_lon.get ⟨j, hjc⟩ := by
  cases hl : linspace 0 p.total_time_myr p.time_steps with
  | none => simp [simulate_plate_motion, hl] at hres
  | some time =>
    rw [simulate_eq hl] at hres
    obtain rfl := Option.some.inj hres
    intro heq
    apply hmult
    simp only [List.get_eq_getElem, List.getElem_map] at heq ⊢
    have hax1 : (spherical_to_cartesian p.rotation_axis_lat
        p.rotation_axis_lon).normSq = 1 := spherical_to_cartesian_normSq _ _
    have hv1 : (spherical_to_cartesian clat clon).normSq = 1 :=
      spherical_to_cartesian_normSq _ _
    simp only [rotation_matrix_unit hax1] at heq
    have hA : ((rotM (spherical_to_cartesian p.rotation_axis_lat p.rotation_axis_lon)
        (deg2rad (p.angular_velocity_deg_per_myr * time[i]))).mulVec
        (spherical_to_cartesian clat clon)).normSq = 1 := by
      rw [rotM_mulVec_normSq hax1]
      exact hv1
    have hB : ((rotM (spherical_to_cartesian p.rotation_axis_lat p.rotation_axis_lon)
        (deg2rad (p.angular_velocity_deg_per_myr * time[j]))).mulVec
        (spherical_to_cartesian clat clon)).normSq = 1 := by
      rw [rotM_mulVec_normSq hax1]
      exact hv1
    have hvec : (rotM (spherical_to_cartesian p.rotation_axis_lat p.rotation_axis_lon)
        (deg2rad (p.angular_velocity_deg_per_myr * time[i]))).mulVec
        (spherical_to_cartesian clat clon)
        = (rotM (spherical_to_cartesian p.rotation_axis_lat p.rotation_axis_lon)
        (deg2rad (p.angular_velocity_deg_per_myr * time[j]))).mulVec
        (spherical_to_cartesian clat clon) := by
      calc (rotM (spherical_to_cartesian p.rotation_axis_lat p.rotation_axis_lon)
            (deg2rad (p.angular_velocity_deg_per_myr * time[i]))).mulVec
            (spherical_to_cartesian clat clon)
          = spherical_to_cartesian
            (cartesian_to_spherical ((rotM (spherical_to_cartesian p.rotation_axis_lat
              p.rotation_axis_lon)
              (deg2rad (p.angular_velocity_deg_per_myr * time[i]))).mulVec
              (spherical_to_cartesian clat clon))).1
            (cartesian_to_spherical ((rotM (spherical_to_cartesian p.rotation_axis_lat
              p.rotation_axis_lon)
              (deg2rad (p.angular_velocity_deg_per_myr * time[i]))).mulVec
              (spherical_to_cartesian clat clon))).2 := (sph_cart_roundtrip hA).symm
        _ = spherical_to_cartesian
            (cartesian_to_spherical ((rotM (spherical_to_cartesian p.rotation_axis_lat
              p.rotation_axis_lon)
              (deg2rad (p.angular_velocity_deg_per_myr * time[j]))).mulVec
              (spherical_to_cartesian clat clon))).1
            (cartesian_to_spherical ((rotM (spherical_to_cartesian p.rotation_axis_lat
              p.rotation_axis_lon)
              (deg2rad (p.angular_velocity_deg_per_myr * time[j]))).mulVec
              (spherical_to_cartesian clat clon))).2 := by rw [heq]
        _ = (rotM (spherical_to_cartesian p.rotation_axis_lat p.rotation_axis_lon)
            (deg2rad (p.angular_velocity_deg_per_myr * time[j]))).mulVec
            (spherical_to_cartesian clat clon) := sph_cart_roundtrip hB
    exact rot_eq_imp hax1 hpar hvec


/-- Parameter set for the C7 runs: 90 degrees per Myr about the north
pole axis, two samples over one Myr. -/
def p7 : PlateMotionParameters := ⟨90, 90, 0, 1, 2⟩

lemma linspace_0_1_2 : linspace 0 1 2 = some [0, 1] := by
  unfold linspace
  rw [if_neg (by norm_num), if_neg (by norm_num)]
  have hr : List.range (Int.toNat 2) = [0, 1] := rfl
  rw [hr]
  norm_num

lemma not_multiple_pi_half : ¬ ∃ k : ℤ, Real.pi / 2 = (k : ℝ) * (2 * Real.pi) := by
  rintro ⟨k, hk⟩
  have hz : Real.pi * (1 - 4 * (k : ℝ)) = 0 := by linear_combination 2 * hk
  rcases mul_eq_zero.mp hz with h | h
  · exact Real.pi_ne_zero h
  · have h4 : (4 : ℝ) * (k : ℝ) = 1 := by linarith
    have h4z : (4 * k : ℤ) = 1 := by exact_mod_cast h4
    omega

lemma p7_axis : spherical_to_cartesian p7.rotation_axis_lat p7.rotation_axis_lon
    = ⟨0, 0, 1⟩ := by
  rw [show p7.rotation_axis_lat = 90 from rfl]
  exact sph_north _

lemma pole_normSq : (Vec3.mk 0 0 1).normSq = 1 := by norm_num [Vec3.normSq]

/-- C7 counterexample: in a run with positive angular velocity about a
nonzero axis, the reference point (90, 0) lying on that axis, the time
values 0 and 1 are distinct, their rotation angles differ by a quarter
turn (not a multiple of 360 degrees), and yet the continent coordinates
at both steps coincide, refuting the claim as stated. -/
theorem claim_C7_counterexample :
    0 < p7.angular_velocity_deg_per_myr ∧
    simulate_plate_motion p7 90 0 = some
      { time_myr := [0, 1]
        continent_lat_lon := [((90:ℝ), (0:ℝ)), ((90:ℝ), (0:ℝ))]
        apparent_pole_lat_lon := [((90:ℝ), (0:ℝ)), ((90:ℝ), (0:ℝ))] } ∧
    (0 : ℝ) ≠ 1 ∧
    ¬ (∃ k : ℤ, deg2rad (p7.angular_velocity_deg_per_myr * 1)
        - deg2rad (p7.angular_velocity_deg_per_myr * 0)
        = (k : ℝ) * (2 * Real.pi)) := by
  refine ⟨by norm_num [p7], ?_, by norm_num, ?_⟩
  · have hl : linspace 0 p7.total_time_myr p7.time_steps = some [0, 1] := by
      rw [show p7.total_time_myr = 1 from rfl, show p7.time_steps = 2 from rfl]
      exact linspace_0_1_2
    rw [simulate_eq hl]
    refine congrArg some ?_
    rw [SimulationResult.mk.injEq]
    have hstep : ∀ t : ℝ, cartesian_to_spherical ((rotation_matrix
        (spherical_to_cartesian p7.rotation_axis_lat p7.rotation_axis_lon)
        (deg2rad (p7.angular_velocity_deg_per_myr * t))).mulVec
        (spherical_to_cartesian 90 0)) = ((90:ℝ), (0:ℝ)) := by
      intro t
      rw [p7_axis, sph_north, rotation_matrix_unit pole_normSq,
        rotM_z_fixes_pole, cart_north]
    have hstepT : ∀ t : ℝ, cartesian_to_spherical (((rotation_matrix
        (spherical_to_cartesian p7.rotation_axis_lat p7.rotation_axis_lon)
        (deg2rad (p7.angular_velocity_deg_per_myr * t))).transpose).mulVec
        ⟨0, 0, 1⟩) = ((90:ℝ), (0:ℝ)) := by
      intro t
      rw [p7_axis, rotation_matrix_unit pole_normSq, rotM_transpose,
        rotM_z_fixes_pole, cart_north]
    refine ⟨rfl, ?_, ?_⟩
    · simp only [List.map_cons, List.map_nil, hstep]
    · simp only [List.map_cons, List.map_nil, hstepT]
  · intro hex
    apply not_multiple_pi_half
    obtain ⟨k, hk⟩ := hex
    refine ⟨k, ?_⟩
    rw [← hk, show p7.angular_velocity_deg_per_myr = 90 from rfl]
    unfold deg2rad
    ring

/-- The exact result of the C7 witness run: reference point (0, 0), not
on the axis, visibly rotated between the two steps. -/
def r7 : SimulationResult :=
  { time_myr := [0, 1]
    continent_lat_lon := [((0:ℝ), (0:ℝ)), ((0:ℝ), (90:ℝ))]
    apparent_pole_lat_lon := [((90:ℝ), (0:ℝ)), ((90:ℝ), (0:ℝ))] }

lemma simulate_p7_origin : simulate_plate_motion p7 0 0 = some r7 := by
  have hl : linspace 0 p7.total_time_myr p7.time_steps = some [0, 1] := by
    rw [show p7.total_time_myr = 1 from rfl, show p7.time_steps = 2 from rfl]
    exact linspace_0_1_2
  rw [simulate_eq hl]
  refine congrArg some ?_
  unfold r7
  rw [SimulationResult.mk.injEq]
  have he0 : cartesian_to_spherical ((rotation_matrix
      (spherical_to_cartesian p7.rotation_axis_lat p7.rotation_axis_lon)
      (deg2rad (p7.angular_velocity_deg_per_myr * 0))).mulVec
      (spherical_to_cartesian 0 0)) = ((0:ℝ), (0:ℝ)) := by
    rw [p7_axis, sph_origin, rotation_matrix_unit pole_normSq, rotM_z_mulVec_x]
    have h0 : deg2rad (p7.angular_velocity_deg_per_myr * 0) = 0 := by
      unfold deg2rad
      ring
    rw [h0, Real.cos_zero, Real.sin_zero, cart_x_axis]
  have he1 : cartesian_to_spherical ((rotation_matrix
      (spherical_to_cartesian p7.rotation_axis_lat p7.rotation_axis_lon)
      (deg2rad (p7.angular_velocity_deg_per_myr * 1))).mulVec
      (spherical_to_cartesian 0 0)) = ((0:ℝ), (90:ℝ)) := by
    rw [p7_axis, sph_origin, rotation_matrix_unit pole_normSq, rotM_z_mulVec_x]
    have h1 : deg2rad (p7.angular_velocity_deg_per_myr * 1) = Real.pi / 2 := by
      rw [show p7.angular_velocity_deg_per_myr = 90 from rfl]
      unfold deg2rad
      ring
    rw [h1, Real.cos_pi_div_two, Real.sin_pi_div_two, cart_y_axis]
  have hstepT : ∀ t : ℝ, cartesian_to_spherical (((rotation_matrix
      (spherical_to_cartesian p7.rotation_axis_lat p7.rotation_axis_lon)
      (deg2rad (p7.angular_velocity_deg_per_myr * t))).transpose).mulVec
      ⟨0, 0, 1⟩) = ((90:ℝ), (0:ℝ)) := by
    intro t
    rw [p7_axis, rotation_matrix_unit pole_normSq, rotM_transpose,
      rotM_z_fixes_pole, cart_north]
  refine ⟨rfl, ?_, ?_⟩
  · simp only [List.map_cons, List.map_nil, he0, he1]
  · simp only [List.map_cons, List.map_nil, hstepT]

theorem claim_C7_witness :
    simulate_plate_motion p7 0 0 = some r7 ∧
    0 < p7.angular_velocity_deg_per_myr ∧
    r7.time_myr.get ⟨0, by norm_num [r7]⟩ ≠ r7.time_myr.get ⟨1, by norm_num [r7]⟩ ∧
    (¬ ∃ k : ℤ,
      deg2rad (p7.angular_velocity_deg_per_myr * r7.time_myr.get ⟨0, by norm_num [r7]⟩)
        - deg2rad (p7.angular_velocity_deg_per_myr * r7.time_myr.get ⟨1, by norm_num [r7]⟩)
        = (k : ℝ) * (2 * Real.pi)) ∧
    (spherical_to_cartesian p7.rotation_axis_lat p7.rotation_axis_lon).cross
        (spherical_to_cartesian 0 0) ≠ ⟨0, 0, 0⟩ ∧
    r7.continent_lat_lon.get ⟨0, by norm_num [r7]⟩
      ≠ r7.continent_lat_lon.get ⟨1, by norm_num [r7]⟩ := by
  have ht : r7.time_myr.get ⟨0, by norm_num [r7]⟩ ≠ r7.time_myr.get ⟨1, by norm_num [r7]⟩ := by
    show (0 : ℝ) ≠ 1
    norm_num
  have hm : ¬ ∃ k : ℤ,
      deg2rad (p7.angular_velocity_deg_per_myr * r7.time_myr.get ⟨0, by norm_num [r7]⟩)
        - deg2rad (p7.angular_velocity_deg_per_myr * r7.time_myr.get ⟨1, by norm_num [r7]⟩)
        = (k : ℝ) * (2 * Real.pi) := by
    intro hex
    obtain ⟨k, hk⟩ := hex
    apply not_multiple_pi_half
    refine ⟨-k, ?_⟩
    have hk2 : deg2rad ((90:ℝ) * 0) - deg2rad (90 * 1) = (k : ℝ) * (2 * Real.pi) := hk
    have hk3 : -(Real.pi / 2) = (k : ℝ) * (2 * Real.pi) := by
      rw [← hk2]
      unfold deg2rad
      ring
    push_cast
    linear_combination -hk3
  have hp : (spherical_to_cartesian p7.rotation_axis_lat p7.rotation_axis_lon).cross
      (spherical_to_cartesian 0 0) ≠ ⟨0, 0, 0⟩ := by
    rw [p7_axis, sph_origin]
    intro h
    have := congrArg Vec3.y h
    norm_num [Vec3.cross] at this
  exact ⟨simulate_p7_origin, by norm_num [p7], ht, hm, hp,
    claim_C7_amended p7 0 0 r7 simulate_p7_origin (by norm_num [p7]) 0 1
      (by norm_num [r7]) (by norm_num [r7]) (by norm_num [r7]) (by norm_num [r7])
      ht hm hp⟩

end
